import Mathlib

/-!
Verification of the helper routines in `optimization_helpers.h` of the
smart-ecolock repository.

The C++ code is glue around a vendor cloud SDK (Firebase).  We embed it
shallowly:

* A parsed JSON tree (`FirebaseJson` in the SDK) is modelled as an
  association list from field path to `FJValue`.  All lookups in the source
  use full slash-delimited paths (such as "fields/role/stringValue"), so a
  flat path-keyed map is a faithful model of `json.get(data, path)`.
* The SDK, the global flags (`sdMode`, `isConnected`, `Firebase.ready()`)
  and the stubbed network outcomes are gathered in an `Env` record.
* Side effects (watchdog feeds, SDK network calls, `Serial.println` lines)
  are returned as an explicit event trace, so that claims about which calls
  were or were not issued become statements about the trace.
* `std::map` (ordered, unique keys, `operator[]` overwrites) is modelled as
  an association list with an overwriting `mapInsert`.
-/

namespace SmartEcolock

/-- A JSON value as surfaced by the vendor library (`FirebaseJsonData`):
either a primitive carrying its string representation, or an array carrying
its serialized string representation and its elements (each element is a
document, itself a path-keyed association list).  In the source, an array
element is re-serialized (`docData.to<String>()`) and re-parsed
(`doc.setJsonData`), a round trip that is the identity on the parsed tree. -/
inductive FJValue : Type where
  | prim : String → FJValue
  | arr : String → List (List (String × FJValue)) → FJValue

/-- A parsed JSON document: association list from field path to value
(models `FirebaseJson` together with path-based `get`). -/
abbrev FirebaseJson := List (String × FJValue)

/-- The string representation of a value (`FirebaseJsonData.stringValue`). -/
def FJValue.stringValue : FJValue → String
  | .prim s => s
  | .arr s _ => s

/-- The type tag of a value (`FirebaseJsonData.type`): the source only ever
compares it against "array". -/
def FJValue.jtype : FJValue → String
  | .prim _ => "string"
  | .arr _ _ => "array"

/-- The elements of an array value (`FirebaseJsonData.getArray`). -/
def FJValue.getArray : FJValue → List FirebaseJson
  | .prim _ => []
  | .arr _ ds => ds

/-- `json.get(jsonData, field)`: path lookup in the parsed tree; returns the
value when the path is present. -/
def jsonGet (json : FirebaseJson) (field : String) : Option FJValue :=
  List.lookup field json

/-- The global flags and the stub SDK: `sdMode`, `isConnected`,
`Firebase.ready()`, and the outcome of each SDK network call
(`Firebase.Firestore.getDocument`, `Firebase.RTDB.setJSON`,
`Firebase.RTDB.updateNode`) together with the parsed response payload
(`firestoreFbdo.payload()`) and the SDK error reason (`fbdo.errorReason()`). -/
structure Env : Type where
  sdMode : Bool
  isConnected : Bool
  firebaseReady : Bool
  firestoreOk : Bool
  firestorePayload : FirebaseJson
  rtdbSetOk : Bool
  rtdbUpdateOk : Bool
  errorReason : String

/-- An observable side effect of a helper: a watchdog feed, an SDK network
call, or a `Serial.println` line. -/
inductive Event : Type where
  | feedWatchdog : Event
  | sdkFirestoreGet : String → Event
  | sdkRtdbSet : String → Event
  | sdkRtdbUpdate : String → Event
  | serialLog : String → Event
deriving DecidableEq, Repr

/-- The shared guard `sdMode || !isConnected || !Firebase.ready()` that opens
every helper: `true` means the operation short-circuits. -/
def gateBlocked (env : Env) : Bool :=
  env.sdMode || !env.isConnected || !env.firebaseReady

/-- `fetchFirestoreCollection(collection, jsonResult)`: gate check, watchdog
feed, Firestore read; on success `jsonResult.setJsonData(payload)` replaces
the output with the parsed payload.  Returns (result, final value of
`jsonResult`, event trace). -/
def fetchFirestoreCollection (env : Env) (collection : String)
    (jsonResult : FirebaseJson) : Bool × FirebaseJson × List Event :=
  if gateBlocked env then
    (false, jsonResult, [])
  else if env.firestoreOk then
    (true, env.firestorePayload,
      [Event.feedWatchdog, Event.sdkFirestoreGet collection])
  else
    (false, jsonResult,
      [Event.feedWatchdog, Event.sdkFirestoreGet collection])

/-- `writeToRTDB(path, json, logFailure)`: gate check, watchdog feed,
`Firebase.RTDB.setJSON`; on SDK failure logs the error reason only when
`logFailure` is set.  Returns (result, event trace). -/
def writeToRTDB (env : Env) (path : String) (logFailure : Bool) :
    Bool × List Event :=
  if gateBlocked env then
    (false, [])
  else if env.rtdbSetOk then
    (true, [Event.feedWatchdog, Event.sdkRtdbSet path])
  else if logFailure then
    (false, [Event.feedWatchdog, Event.sdkRtdbSet path,
      Event.serialLog ("Failed to write to RTDB: " ++ env.errorReason)])
  else
    (false, [Event.feedWatchdog, Event.sdkRtdbSet path])

/-- `updateRTDBNode(path, json)`: gate check, watchdog feed,
`Firebase.RTDB.updateNode`; on SDK failure always logs the error reason.
Returns (result, event trace). -/
def updateRTDBNode (env : Env) (path : String) : Bool × List Event :=
  if gateBlocked env then
    (false, [])
  else if env.rtdbUpdateOk then
    (true, [Event.feedWatchdog, Event.sdkRtdbUpdate path])
  else
    (false, [Event.feedWatchdog, Event.sdkRtdbUpdate path,
      Event.serialLog ("Failed to update node in RTDB: " ++ env.errorReason)])

/-- `getFirebaseField(json, field, result)`: on presence of the field the
output parameter receives its string representation and the call returns
true; on absence the output keeps its prior value and the call returns
false.  Returns (result, final value of `result`). -/
def getFirebaseField (json : FirebaseJson) (field : String) (result : String) :
    Bool × String :=
  match jsonGet json field with
  | some v => (true, v.stringValue)
  | none => (false, result)

/-- A person record: `std::map<String, String>` as an association list with
unique keys. -/
abbrev PersonMap := List (String × String)

/-- The collection result: `std::map<String, std::map<String, String>>`. -/
abbrev ResultMap := List (String × PersonMap)

/-- `m[k] = v` on a `std::map`: overwrite the entry when the key is present,
append it otherwise. -/
def mapInsert {α : Type} (m : List (String × α)) (k : String) (v : α) :
    List (String × α) :=
  if m.any (fun p => p.1 == k) then
    m.map (fun p => if p.1 == k then (k, v) else p)
  else
    m ++ [(k, v)]

/-- `extractPersonData(doc, data)`: populates the record with `fullName`
(default "Unknown"), `email` (no default), `role` (no default) and
`schedules` (default "[]"), in that order, starting from the empty map the
caller passes in. -/
def extractPersonData (doc : FirebaseJson) : PersonMap :=
  let d0 : PersonMap := []
  let d1 :=
    match jsonGet doc "fields/fullName/stringValue" with
    | some v => mapInsert d0 "fullName" v.stringValue
    | none => mapInsert d0 "fullName" "Unknown"
  let d2 :=
    match jsonGet doc "fields/email/stringValue" with
    | some v => mapInsert d1 "email" v.stringValue
    | none => d1
  let d3 :=
    match jsonGet doc "fields/role/stringValue" with
    | some v => mapInsert d2 "role" v.stringValue
    | none => d2
  match jsonGet doc "fields/schedules/arrayValue" with
  | some v => mapInsert d3 "schedules" v.stringValue
  | none => mapInsert d3 "schedules" "[]"

/-- The body of `fetchAndProcessCollection`'s per-element step: `if (role &&
personData.find("role") == personData.end()) personData["role"] = role`. -/
def applyDefaultRole (role : Option String) (personData : PersonMap) :
    PersonMap :=
  match role with
  | some r =>
      if (List.lookup "role" personData).isNone then
        mapInsert personData "role" r
      else
        personData
  | none => personData

/-- One iteration of `fetchAndProcessCollection`'s document loop: extract
`rfidUid`; when present and non-empty, map the document, stamp the default
role, and insert keyed by the identifier; feed the watchdog at the end of
the iteration in every case. -/
def processDoc (role : Option String) (m : ResultMap) (doc : FirebaseJson) :
    ResultMap × List Event :=
  match jsonGet doc "fields/rfidUid/stringValue" with
  | some v =>
      if v.stringValue.length > 0 then
        (mapInsert m v.stringValue
          (applyDefaultRole role (extractPersonData doc)),
         [Event.feedWatchdog])
      else
        (m, [Event.feedWatchdog])
  | none => (m, [Event.feedWatchdog])

/-- The document loop of `fetchAndProcessCollection`, threading the output
map and accumulating the event trace. -/
def processDocs (role : Option String) (m : ResultMap) :
    List FirebaseJson → ResultMap × List Event
  | [] => (m, [])
  | d :: rest =>
      let r1 := processDoc role m d
      let r2 := processDocs role r1.1 rest
      (r2.1, r1.2 ++ r2.2)

/-- `fetchAndProcessCollection(collection, resultMap, role)`: gate check;
log "Fetching ..."; fetch the collection into a fresh local `FirebaseJson`;
on fetch failure log and return; otherwise iterate the `documents` array
field (skipped when absent or not an array) and log the final summary count,
which is the total size of the output map.  Returns (final value of
`resultMap`, event trace). -/
def fetchAndProcessCollection (env : Env) (collection : String)
    (resultMap : ResultMap) (role : Option String) :
    ResultMap × List Event :=
  if gateBlocked env then
    (resultMap, [])
  else
    let fetchingLog :=
      Event.serialLog ("Fetching " ++ collection ++ " from Firestore...")
    let fr := fetchFirestoreCollection env collection []
    if !fr.1 then
      (resultMap,
        fetchingLog :: fr.2.2 ++
          [Event.serialLog ("Failed to fetch " ++ collection
            ++ " from Firestore")])
    else
      let pr :=
        match jsonGet fr.2.1 "documents" with
        | some v =>
            if v.jtype == "array" then
              processDocs role resultMap v.getArray
            else
              (resultMap, [])
        | none => (resultMap, [])
      (pr.1,
        fetchingLog :: fr.2.2 ++ pr.2 ++
          [Event.serialLog ("Fetched " ++ toString pr.1.length ++ " "
            ++ collection ++ " from Firestore")])

/-- The list of documents the call would iterate over: the `documents`
array field of the stubbed response payload, empty when absent or not an
array. -/
def fetchedDocs (env : Env) : List FirebaseJson :=
  match jsonGet env.firestorePayload "documents" with
  | some v => if v.jtype == "array" then v.getArray else []
  | none => []

/-- Whether a document has a present, non-empty `rfidUid` equal to `uid`. -/
def docMatches (doc : FirebaseJson) (uid : String) : Bool :=
  match jsonGet doc "fields/rfidUid/stringValue" with
  | some v => uid == v.stringValue && decide (v.stringValue.length > 0)
  | none => false

/-- The record contributed for `uid` by the last document in the list whose
`rfidUid` is present, non-empty and equal to `uid` (last-write-wins), if
any. -/
def lastUidRecord (role : Option String) (uid : String) :
    List FirebaseJson → Option PersonMap
  | [] => none
  | d :: rest =>
      match lastUidRecord role uid rest with
      | some r => some r
      | none =>
          if docMatches d uid then
            some (applyDefaultRole role (extractPersonData d))
          else
            none

/-! ### Concrete test data from the spec's testable properties -/

/-- Stub document whose `rfidUid` is "ABC123". -/
def docA : FirebaseJson :=
  [("fields/rfidUid/stringValue", FJValue.prim "ABC123"),
   ("fields/fullName/stringValue", FJValue.prim "Alice")]

/-- Stub document whose `rfidUid` is the empty string. -/
def docB : FirebaseJson :=
  [("fields/rfidUid/stringValue", FJValue.prim "")]

/-- Stub document with a non-empty `rfidUid` and no role field. -/
def docC : FirebaseJson :=
  [("fields/rfidUid/stringValue", FJValue.prim "UID9"),
   ("fields/fullName/stringValue", FJValue.prim "Bob")]

/-- Stub environment: gate open, Firestore read succeeds, response carries
`docA` and `docB`. -/
def envTwoDocs : Env :=
  ⟨false, true, true, true,
   [("documents", FJValue.arr "[...]" [docA, docB])],
   true, true, "error"⟩

/-- Stub environment: gate open, Firestore read succeeds, response carries
only `docC`. -/
def envStudent : Env :=
  ⟨false, true, true, true,
   [("documents", FJValue.arr "[...]" [docC])],
   true, true, "error"⟩

/-- Stub environment blocked by the gate (`sdMode` set). -/
def envGateOff : Env := ⟨true, true, true, true, [], true, true, "error"⟩

/-- Stub environment: gate open but every SDK call fails. -/
def envSdkFail : Env := ⟨false, true, true, false, [], false, false, "down"⟩

/-! ### Helper lemmas about the map and loop operations -/

theorem lookup_cons_pair {α : Type} (a : String) (p : String × α)
    (l : List (String × α)) :
    List.lookup a (p :: l) = if a = p.1 then some p.2 else List.lookup a l := by
  cases p with
  | mk k b =>
      rw [List.lookup_cons]
      by_cases h : a = k
      · have hb : (a == k) = true := by simp [h]
        simp [hb, h]
      · have hb : (a == k) = false := by simp [h]
        simp [hb, h]

theorem lookup_map_ne {α : Type} (k k' : String) (v : α) (hne : k' ≠ k)
    (m : List (String × α)) :
    List.lookup k' (m.map (fun p => if p.1 = k then (k, v) else p)) =
      List.lookup k' m := by
  induction m with
  | nil => rfl
  | cons p rest ih =>
      by_cases h : p.1 = k
      · have h1 : k' ≠ p.1 := fun hq => hne (h ▸ hq)
        simp only [List.map_cons]
        rw [if_pos h, lookup_cons_pair, lookup_cons_pair]
        simp [hne, h1, ih]
      · simp only [List.map_cons]
        rw [if_neg h, lookup_cons_pair, lookup_cons_pair]
        simp [ih]

theorem mapInsert_cons_ne {α : Type} (k : String) (v : α) (p : String × α)
    (rest : List (String × α)) (hp : p.1 ≠ k) :
    mapInsert (p :: rest) k v = p :: mapInsert rest k v := by
  by_cases ha : rest.any (fun q => q.1 == k) = true
  · simp [mapInsert, List.any_cons, ha, hp]
  · simp [mapInsert, List.any_cons, ha, hp]

theorem mapInsert_cons_eq {α : Type} (k : String) (v : α) (p : String × α)
    (rest : List (String × α)) (hp : p.1 = k) :
    mapInsert (p :: rest) k v =
      (k, v) :: rest.map (fun q => if q.1 = k then (k, v) else q) := by
  simp [mapInsert, List.any_cons, hp]

theorem lookup_mapInsert {α : Type} (k k' : String) (v : α)
    (m : List (String × α)) :
    List.lookup k' (mapInsert m k v) =
      if k' = k then some v else List.lookup k' m := by
  induction m with
  | nil =>
      simp [mapInsert, lookup_cons_pair]
  | cons p rest ih =>
      by_cases hp : p.1 = k
      · rw [mapInsert_cons_eq k v p rest hp, lookup_cons_pair]
        by_cases hk : k' = k
        · simp [hk]
        · have h1 : k' ≠ p.1 := fun hq => hk (hq.trans hp)
          rw [lookup_cons_pair]
          simp [hk, h1, lookup_map_ne k k' v hk rest]
      · rw [mapInsert_cons_ne k v p rest hp, lookup_cons_pair,
          lookup_cons_pair]
        by_cases hq : k' = p.1
        · have hk : k' ≠ k := fun hkk => hp (hq ▸ hkk)
          simp [hq, hk, hp]
        · simp [hq, ih]

theorem processDoc_snd (role : Option String) (m : ResultMap)
    (d : FirebaseJson) :
    (processDoc role m d).2 = [Event.feedWatchdog] := by
  unfold processDoc
  cases jsonGet d "fields/rfidUid/stringValue" with
  | none => rfl
  | some v =>
      by_cases h : v.stringValue.length > 0 <;> simp [h]

theorem processDocs_snd (role : Option String) (m : ResultMap)
    (docs : List FirebaseJson) :
    (processDocs role m docs).2 =
      List.replicate docs.length Event.feedWatchdog := by
  induction docs generalizing m with
  | nil => rfl
  | cons d rest ih =>
      simp [processDocs, processDoc_snd, ih, List.replicate_succ]

theorem processDoc_fst (role : Option String) (m : ResultMap)
    (d : FirebaseJson) (uid : String) :
    List.lookup uid (processDoc role m d).1 =
      if docMatches d uid = true then
        some (applyDefaultRole role (extractPersonData d))
      else
        List.lookup uid m := by
  unfold processDoc docMatches
  cases h : jsonGet d "fields/rfidUid/stringValue" with
  | none => simp
  | some v =>
      by_cases hl : v.stringValue.length > 0
      · simp only [hl, if_true, decide_eq_true_eq]
        rw [lookup_mapInsert]
        by_cases he : uid = v.stringValue
        · simp [he, hl]
        · simp [he, hl]
      · simp [hl]

theorem processDocs_fst (role : Option String) (m : ResultMap)
    (docs : List FirebaseJson) (uid : String) :
    List.lookup uid (processDocs role m docs).1 =
      (match lastUidRecord role uid docs with
       | some r => some r
       | none => List.lookup uid m) := by
  induction docs generalizing m with
  | nil => rfl
  | cons d rest ih =>
      simp only [processDocs]
      rw [ih]
      cases h : lastUidRecord role uid rest with
      | some r => simp [lastUidRecord, h]
      | none =>
          simp only [lastUidRecord, h]
          rw [processDoc_fst]
          by_cases hm : docMatches d uid = true <;> simp [hm]

theorem lastUidRecord_mem (role : Option String) (uid : String)
    (docs : List FirebaseJson)
    (h : (lastUidRecord role uid docs).isSome = true) :
    ∃ d, d ∈ docs ∧ docMatches d uid = true := by
  induction docs with
  | nil => simp [lastUidRecord] at h
  | cons d rest ih =>
      simp only [lastUidRecord] at h
      cases hr : lastUidRecord role uid rest with
      | some r2 =>
          obtain ⟨d2, hd2, hm⟩ := ih (by simp [hr])
          exact ⟨d2, List.mem_cons_of_mem d hd2, hm⟩
      | none =>
          rw [hr] at h
          by_cases hm : docMatches d uid = true
          · exact ⟨d, List.mem_cons_self d rest, hm⟩
          · simp [hm] at h

theorem lastUidRecord_none (role : Option String) (uid : String)
    (docs : List FirebaseJson)
    (h : ∀ d, d ∈ docs → docMatches d uid = false) :
    lastUidRecord role uid docs = none := by
  induction docs with
  | nil => rfl
  | cons d rest ih =>
      have hrest : lastUidRecord role uid rest = none :=
        ih fun d2 hd2 => h d2 (List.mem_cons_of_mem d hd2)
      simp [lastUidRecord, hrest, h d (List.mem_cons_self d rest)]

theorem fapc_fst (env : Env) (collection : String) (resultMap : ResultMap)
    (role : Option String) :
    (fetchAndProcessCollection env collection resultMap role).1 =
      (if gateBlocked env = false ∧ env.firestoreOk = true then
        (processDocs role resultMap (fetchedDocs env)).1
       else resultMap) := by
  unfold fetchAndProcessCollection fetchedDocs
  by_cases hg : gateBlocked env = true
  · simp [hg]
  · simp only [Bool.not_eq_true] at hg
    cases ho : env.firestoreOk with
    | false => simp [fetchFirestoreCollection, hg, ho]
    | true =>
        simp only [fetchFirestoreCollection, hg, ho, Bool.false_eq_true,
          if_false, if_true, Bool.not_true, and_self]
        cases hj : jsonGet env.firestorePayload "documents" with
        | none => simp [processDocs]
        | some v =>
            cases v with
            | prim s => simp [FJValue.jtype, FJValue.getArray, processDocs]
            | arr s ds => simp [FJValue.jtype, FJValue.getArray]

/-! ### Claim theorems -/

/-- C1: if local-fallback mode (`sdMode`) is true, or the network-connected
flag is false, or the SDK-ready check is false, then each of the four gated
operations returns its failure value (false, or void return) with an empty
event trace — so no SDK call is invoked — and leaves its output parameter
unchanged. -/
theorem gate_blocks_all_operations (env : Env) (collection path : String)
    (jsonResult : FirebaseJson) (logFailure : Bool) (resultMap : ResultMap)
    (role : Option String)
    (h : env.sdMode = true ∨ env.isConnected = false ∨
      env.firebaseReady = false) :
    fetchFirestoreCollection env collection jsonResult =
      (false, jsonResult, []) ∧
    writeToRTDB env path logFailure = (false, []) ∧
    updateRTDBNode env path = (false, []) ∧
    fetchAndProcessCollection env collection resultMap role =
      (resultMap, []) := by
  have hg : gateBlocked env = true := by
    rcases h with h | h | h <;> simp [gateBlocked, h]
  refine ⟨?_, ?_, ?_, ?_⟩ <;>
    simp [fetchFirestoreCollection, writeToRTDB, updateRTDBNode,
      fetchAndProcessCollection, hg]

/-- Witness for C1: the blocked environment `envGateOff` (with `sdMode`
set) makes all four operations fail with no effect. -/
theorem gate_blocks_all_operations_witness :
    (envGateOff.sdMode = true ∨ envGateOff.isConnected = false ∨
      envGateOff.firebaseReady = false) ∧
    (fetchFirestoreCollection envGateOff "teachers" [] = (false, [], []) ∧
     writeToRTDB envGateOff "Attendance" true = (false, []) ∧
     updateRTDBNode envGateOff "Attendance" = (false, []) ∧
     fetchAndProcessCollection envGateOff "teachers" [] none = ([], [])) :=
  ⟨Or.inl rfl,
   gate_blocks_all_operations envGateOff "teachers" "Attendance" [] true []
     none (Or.inl rfl)⟩

/-- C2: `getFirebaseField` returns true and copies the field's string
representation to the output on presence, and returns false leaving the
output's prior value on absence; concretely, extracting
"fields/role/stringValue" from a value holding "teacher" there yields
("teacher", true) and a non-existent path yields (unchanged, false). -/
theorem getFirebaseField_spec (json : FirebaseJson) (field result : String) :
    (∀ v, jsonGet json field = some v →
      getFirebaseField json field result = (true, v.stringValue)) ∧
    (jsonGet json field = none →
      getFirebaseField json field result = (false, result)) ∧
    getFirebaseField [("fields/role/stringValue", FJValue.prim "teacher")]
      "fields/role/stringValue" result = (true, "teacher") ∧
    getFirebaseField [("fields/role/stringValue", FJValue.prim "teacher")]
      "fields/missing/stringValue" result = (false, result) := by
  refine ⟨?_, ?_, ?_, ?_⟩
  · intro v hv
    simp [getFirebaseField, hv]
  · intro hv
    simp [getFirebaseField, hv]
  · rfl
  · rfl

/-- Witness for C2: the present-field branch applied at the concrete
teacher value. -/
theorem getFirebaseField_spec_witness :
    jsonGet [("fields/role/stringValue", FJValue.prim "teacher")]
      "fields/role/stringValue" = some (FJValue.prim "teacher") ∧
    getFirebaseField [("fields/role/stringValue", FJValue.prim "teacher")]
      "fields/role/stringValue" "prior" = (true, "teacher") :=
  ⟨rfl,
   (getFirebaseField_spec
      [("fields/role/stringValue", FJValue.prim "teacher")]
      "fields/role/stringValue" "prior").1 (FJValue.prim "teacher") rfl⟩

/-- C3: `extractPersonData` always succeeds and yields a record whose
fullName is the document's field or "Unknown", whose schedules is the
document's field or "[]", and which contains the email and role keys
exactly when the document has the corresponding fields. -/
theorem extractPersonData_spec (doc : FirebaseJson) :
    List.lookup "fullName" (extractPersonData doc) =
      some (match jsonGet doc "fields/fullName/stringValue" with
            | some v => v.stringValue
            | none => "Unknown") ∧
    List.lookup "schedules" (extractPersonData doc) =
      some (match jsonGet doc "fields/schedules/arrayValue" with
            | some v => v.stringValue
            | none => "[]") ∧
    ((List.lookup "email" (extractPersonData doc)).isSome ↔
      (jsonGet doc "fields/email/stringValue").isSome) ∧
    ((List.lookup "role" (extractPersonData doc)).isSome ↔
      (jsonGet doc "fields/role/stringValue").isSome) := by
  unfold extractPersonData
  cases h1 : jsonGet doc "fields/fullName/stringValue" <;>
    cases h2 : jsonGet doc "fields/email/stringValue" <;>
      cases h3 : jsonGet doc "fields/role/stringValue" <;>
        cases h4 : jsonGet doc "fields/schedules/arrayValue" <;>
          simp [lookup_mapInsert]

/-- Witness for C3: the mapper applied to the concrete document `docC`
(which has a fullName but no schedules field). -/
theorem extractPersonData_spec_witness :
    List.lookup "fullName" (extractPersonData docC) = some "Bob" ∧
    List.lookup "schedules" (extractPersonData docC) = some "[]" := by
  have h := extractPersonData_spec docC
  exact ⟨h.1.trans (by decide), h.2.1.trans (by decide)⟩

/-- C4: a key can appear in the mapping built from an empty output only
through a document whose `rfidUid` field is present and non-empty (missing
or empty identifiers are silently skipped); concretely, a response whose
two documents carry rfidUid "ABC123" and "" yields exactly one entry,
keyed "ABC123". -/
theorem fetchAndProcessCollection_rfid_filter (env : Env)
    (collection : String) (role : Option String) (k : String)
    (hk : List.lookup k
      (fetchAndProcessCollection env collection [] role).1 ≠ none) :
    (∃ d, d ∈ fetchedDocs env ∧ docMatches d k = true) ∧
    (fetchAndProcessCollection envTwoDocs "teachers" [] none).1.map
      Prod.fst = ["ABC123"] := by
  refine ⟨?_, by decide⟩
  rw [fapc_fst] at hk
  by_cases hc : gateBlocked env = false ∧ env.firestoreOk = true
  · rw [if_pos hc, processDocs_fst] at hk
    cases hr : lastUidRecord role k (fetchedDocs env) with
    | none => rw [hr] at hk; simp at hk
    | some r =>
        exact lastUidRecord_mem role k (fetchedDocs env) (by simp [hr])
  · rw [if_neg hc] at hk
    simp at hk

/-- Witness for C4: the key "ABC123" of the concrete two-document run comes
from a matching document. -/
theorem fetchAndProcessCollection_rfid_filter_witness :
    List.lookup "ABC123"
      (fetchAndProcessCollection envTwoDocs "teachers" [] none).1 ≠ none ∧
    ∃ d, d ∈ fetchedDocs envTwoDocs ∧ docMatches d "ABC123" = true :=
  ⟨by decide,
   (fetchAndProcessCollection_rfid_filter envTwoDocs "teachers" none
      "ABC123" (by decide)).1⟩

/-- C5: when the gate passes and the fetch succeeds, the entry at each
identifier is the record of the last document whose `rfidUid` equals it
(last-write-wins), untouched otherwise; the supplied default role fills the
role key exactly when the mapped record lacks one, and a missing caller
role changes nothing; concretely, with default role "student" and a
document without a role field, the stored record's role is "student". -/
theorem fetchAndProcessCollection_insert_spec (env : Env)
    (collection : String) (resultMap : ResultMap) (role : Option String)
    (uid : String)
    (hg : gateBlocked env = false) (hok : env.firestoreOk = true) :
    List.lookup uid
        (fetchAndProcessCollection env collection resultMap role).1 =
      (match lastUidRecord role uid (fetchedDocs env) with
       | some r => some r
       | none => List.lookup uid resultMap) ∧
    (∀ p r, List.lookup "role" (applyDefaultRole (some r) p) =
      (match List.lookup "role" p with
       | some v => some v
       | none => some r)) ∧
    (∀ p, applyDefaultRole none p = p) ∧
    ((List.lookup "UID9" (fetchAndProcessCollection envStudent "students" []
        (some "student")).1).bind (List.lookup "role")) = some "student" := by
  refine ⟨?_, ?_, fun p => rfl, by decide⟩
  · rw [fapc_fst, if_pos ⟨hg, hok⟩, processDocs_fst]
  · intro p r
    unfold applyDefaultRole
    cases hp : List.lookup "role" p with
    | none => simp [hp, lookup_mapInsert]
    | some v => simp [hp]

/-- Witness for C5: the hypotheses hold at the concrete environment
`envStudent` and the last-write-wins characterization applies there. -/
theorem fetchAndProcessCollection_insert_spec_witness :
    gateBlocked envStudent = false ∧ envStudent.firestoreOk = true ∧
    List.lookup "UID9" (fetchAndProcessCollection envStudent "students" []
        (some "student")).1 =
      (match lastUidRecord (some "student") "UID9" (fetchedDocs envStudent)
       with
       | some r => some r
       | none => List.lookup "UID9" ([] : ResultMap)) :=
  ⟨rfl, rfl,
   (fetchAndProcessCollection_insert_spec envStudent "students" []
      (some "student") "UID9" rfl rfl).1⟩

/-- C6: `fetchFirestoreCollection` returns true exactly when the gate
passes and the SDK read succeeds, in which case the output holds the parsed
response payload (replacing any prior content); on gate failure or SDK
error it returns false and the output keeps its prior value. -/
theorem fetchFirestoreCollection_spec (env : Env) (collection : String)
    (jsonResult : FirebaseJson) :
    ((fetchFirestoreCollection env collection jsonResult).1 = true ↔
      gateBlocked env = false ∧ env.firestoreOk = true) ∧
    ((fetchFirestoreCollection env collection jsonResult).1 = true →
      (fetchFirestoreCollection env collection jsonResult).2.1 =
        env.firestorePayload) ∧
    ((fetchFirestoreCollection env collection jsonResult).1 = false →
      (fetchFirestoreCollection env collection jsonResult).2.1 =
        jsonResult) := by
  unfold fetchFirestoreCollection
  by_cases hg : gateBlocked env = true
  · simp [hg]
  · simp only [Bool.not_eq_true] at hg
    cases ho : env.firestoreOk <;> simp [hg, ho]

/-- Witness for C6: a successful fetch at `envTwoDocs` returns true and
stores the payload. -/
theorem fetchFirestoreCollection_spec_witness :
    (fetchFirestoreCollection envTwoDocs "teachers" []).1 = true ∧
    (fetchFirestoreCollection envTwoDocs "teachers" []).2.1 =
      envTwoDocs.firestorePayload :=
  have h := fetchFirestoreCollection_spec envTwoDocs "teachers" []
  ⟨h.1.mpr ⟨rfl, rfl⟩, h.2.1 (h.1.mpr ⟨rfl, rfl⟩)⟩

/-- C7: when the gate passes but the Firestore fetch fails,
`fetchAndProcessCollection` leaves the output mapping completely unchanged
and its trace is exactly the fetching log, the watchdog feed, the SDK call
and the failure log line. -/
theorem fetchAndProcessCollection_fetch_failure (env : Env)
    (collection : String) (resultMap : ResultMap) (role : Option String)
    (hg : gateBlocked env = false) (hfail : env.firestoreOk = false) :
    fetchAndProcessCollection env collection resultMap role =
      (resultMap,
        [Event.serialLog ("Fetching " ++ collection ++ " from Firestore..."),
         Event.feedWatchdog, Event.sdkFirestoreGet collection,
         Event.serialLog ("Failed to fetch " ++ collection
           ++ " from Firestore")]) := by
  simp [fetchAndProcessCollection, fetchFirestoreCollection, hg, hfail]

/-- Witness for C7: the fetch-failure branch at the concrete environment
`envSdkFail` with a pre-populated output mapping. -/
theorem fetchAndProcessCollection_fetch_failure_witness :
    gateBlocked envSdkFail = false ∧
    fetchAndProcessCollection envSdkFail "teachers" [("OLD", [])] none =
      ([("OLD", [])],
        [Event.serialLog ("Fetching " ++ "teachers" ++ " from Firestore..."),
         Event.feedWatchdog, Event.sdkFirestoreGet "teachers",
         Event.serialLog ("Failed to fetch " ++ "teachers"
           ++ " from Firestore")]) :=
  ⟨rfl,
   fetchAndProcessCollection_fetch_failure envSdkFail "teachers"
     [("OLD", [])] none rfl rfl⟩

/-- C8: on SDK failure `writeToRTDB` logs the error reason exactly when its
`logFailure` flag is set, while `updateRTDBNode` always logs it; neither
logs anything on gate failure, and both return false in every failure
case. -/
theorem rtdb_failure_logging (env : Env) (path : String) (logFailure : Bool)
    (hg : gateBlocked env = false) :
    (env.rtdbSetOk = false →
      (writeToRTDB env path logFailure).1 = false ∧
      ((Event.serialLog ("Failed to write to RTDB: " ++ env.errorReason) ∈
          (writeToRTDB env path logFailure).2) ↔ logFailure = true)) ∧
    (env.rtdbUpdateOk = false →
      (updateRTDBNode env path).1 = false ∧
      Event.serialLog ("Failed to update node in RTDB: " ++ env.errorReason)
        ∈ (updateRTDBNode env path).2) ∧
    (∀ e : Env, gateBlocked e = true →
      writeToRTDB e path logFailure = (false, []) ∧
      updateRTDBNode e path = (false, [])) := by
  refine ⟨?_, ?_, ?_⟩
  · intro hset
    cases logFailure <;> simp [writeToRTDB, hg, hset]
  · intro hupd
    simp [updateRTDBNode, hg, hupd]
  · intro e hge
    constructor <;> simp [writeToRTDB, updateRTDBNode, hge]

/-- Witness for C8: at `envSdkFail` with logging enabled, the write fails
and logs. -/
theorem rtdb_failure_logging_witness :
    gateBlocked envSdkFail = false ∧ envSdkFail.rtdbSetOk = false ∧
    ((writeToRTDB envSdkFail "Attendance" true).1 = false ∧
      ((Event.serialLog ("Failed to write to RTDB: "
          ++ envSdkFail.errorReason) ∈
        (writeToRTDB envSdkFail "Attendance" true).2) ↔ true = true)) :=
  ⟨rfl, rfl,
   (rtdb_failure_logging envSdkFail "Attendance" true rfl).1 rfl⟩

/-- C9: whenever the gate passes, each operation's trace shows the watchdog
feed strictly before the SDK network call, and the document loop feeds the
watchdog exactly once per array element, skipped elements included. -/
theorem watchdog_before_sdk (env : Env) (collection path : String)
    (jsonResult : FirebaseJson) (logFailure : Bool)
    (resultMap m : ResultMap) (role : Option String)
    (docs : List FirebaseJson)
    (hg : gateBlocked env = false) :
    (∃ rest, (fetchFirestoreCollection env collection jsonResult).2.2 =
      Event.feedWatchdog :: Event.sdkFirestoreGet collection :: rest) ∧
    (∃ rest, (writeToRTDB env path logFailure).2 =
      Event.feedWatchdog :: Event.sdkRtdbSet path :: rest) ∧
    (∃ rest, (updateRTDBNode env path).2 =
      Event.feedWatchdog :: Event.sdkRtdbUpdate path :: rest) ∧
    (∃ rest, (fetchAndProcessCollection env collection resultMap role).2 =
      Event.serialLog ("Fetching " ++ collection ++ " from Firestore...") ::
        Event.feedWatchdog :: Event.sdkFirestoreGet collection :: rest) ∧
    (processDocs role m docs).2 =
      List.replicate docs.length Event.feedWatchdog := by
  refine ⟨?_, ?_, ?_, ?_, processDocs_snd role m docs⟩
  · cases ho : env.firestoreOk <;>
      exact ⟨[], by simp [fetchFirestoreCollection, hg, ho]⟩
  · cases hs : env.rtdbSetOk with
    | true => exact ⟨[], by simp [writeToRTDB, hg, hs]⟩
    | false =>
        cases logFailure with
        | true =>
            exact ⟨[Event.serialLog ("Failed to write to RTDB: "
                ++ env.errorReason)],
              by simp [writeToRTDB, hg, hs]⟩
        | false => exact ⟨[], by simp [writeToRTDB, hg, hs]⟩
  · cases hu : env.rtdbUpdateOk with
    | true => exact ⟨[], by simp [updateRTDBNode, hg, hu]⟩
    | false =>
        exact ⟨[Event.serialLog ("Failed to update node in RTDB: "
            ++ env.errorReason)],
          by simp [updateRTDBNode, hg, hu]⟩
  · cases ho : env.firestoreOk with
    | false =>
        exact ⟨[Event.serialLog ("Failed to fetch " ++ collection
            ++ " from Firestore")],
          by simp [fetchAndProcessCollection, fetchFirestoreCollection,
            hg, ho]⟩
    | true =>
        simp only [fetchAndProcessCollection, fetchFirestoreCollection, hg,
          ho, Bool.false_eq_true, if_false, if_true, Bool.not_true]
        simp only [List.cons_append, List.append_assoc, List.nil_append]
        exact ⟨_, rfl⟩

/-- Witness for C9: the gate-open environment `envTwoDocs` with a
two-element document list. -/
theorem watchdog_before_sdk_witness :
    gateBlocked envTwoDocs = false ∧
    ((∃ rest, (fetchFirestoreCollection envTwoDocs "teachers" []).2.2 =
      Event.feedWatchdog :: Event.sdkFirestoreGet "teachers" :: rest) ∧
     (processDocs none [] [docA, docB]).2 =
      List.replicate ([docA, docB] : List FirebaseJson).length
        Event.feedWatchdog) :=
  have h := watchdog_before_sdk envTwoDocs "teachers" "Attendance" [] true
    [] [] none [docA, docB] rfl
  ⟨rfl, h.1, h.2.2.2.2⟩

/-- C10: `fetchAndProcessCollection` only accumulates: an entry whose key
matches no fetched document's `rfidUid` is left unchanged in every branch,
and on a successful run the final log line reports the total size of the
output mapping, pre-existing entries included; concretely, starting from a
one-entry mapping and fetching one valid document, the summary reports 2. -/
theorem fetchAndProcessCollection_frame (env : Env) (collection : String)
    (resultMap : ResultMap) (role : Option String) (k : String)
    (hk : ∀ d, d ∈ fetchedDocs env → docMatches d k = false) :
    List.lookup k
        (fetchAndProcessCollection env collection resultMap role).1 =
      List.lookup k resultMap ∧
    (gateBlocked env = false → env.firestoreOk = true →
      (fetchAndProcessCollection env collection resultMap role).2.getLast? =
        some (Event.serialLog ("Fetched "
          ++ toString (fetchAndProcessCollection env collection resultMap
              role).1.length
          ++ " " ++ collection ++ " from Firestore"))) ∧
    (fetchAndProcessCollection envTwoDocs "teachers" [("OLD", [])]
        none).2.getLast? =
      some (Event.serialLog "Fetched 2 teachers from Firestore") := by
  refine ⟨?_, ?_, by decide⟩
  · rw [fapc_fst]
    by_cases hc : gateBlocked env = false ∧ env.firestoreOk = true
    · rw [if_pos hc, processDocs_fst,
        lastUidRecord_none role k (fetchedDocs env) hk]
    · rw [if_neg hc]
  · intro hg ho
    simp only [fetchAndProcessCollection, fetchFirestoreCollection, hg, ho,
      Bool.false_eq_true, if_false, if_true, Bool.not_true]
    rw [List.getLast?_concat]

/-- Witness for C10: the pre-existing entry "OLD" survives the concrete
two-document run unchanged. -/
theorem fetchAndProcessCollection_frame_witness :
    (∀ d, d ∈ fetchedDocs envTwoDocs → docMatches d "OLD" = false) ∧
    List.lookup "OLD" (fetchAndProcessCollection envTwoDocs "teachers"
        [("OLD", [])] none).1 =
      List.lookup "OLD" [("OLD", ([] : PersonMap))] :=
  ⟨by decide,
   (fetchAndProcessCollection_frame envTwoDocs "teachers" [("OLD", [])]
      none "OLD" (by decide)).1⟩

end SmartEcolock
